import Mathlib

/-!
Verification of the nodejs-server hardware bridge (src/index.js).

The program bridges two hardware byte streams (an RFID reader that dials in
over TCP, and a weight-scale terminal reached by an outbound TCP client) to
WebSocket subscribers, and exposes an HTTP print endpoint.  This file embeds
the relevant parts of `src/index.js` as Lean definitions and proves the
specification's claims about them.

Payload convention: a `data` event delivers a Node `Buffer`; every handler in
the source immediately calls `data.toString()` and never inspects the
contents, so payloads are modelled as abstract `String` values (the decoded
text), and the `toString` decoding is the identity on that abstract payload.
-/

/- ===================== Broadcaster (WebSocket fan-out) ===================== -/

/-- The `readyState` values of a WebSocket session (`ws` library constants). -/
inductive ReadyState where
  | CONNECTING
  | OPEN
  | CLOSING
  | CLOSED
  deriving DecidableEq, Repr

/-- A WebSocket subscriber in `wss.clients`, identified by its transport
handle (modelled as a numeric id) together with its current `readyState`. -/
structure WsClient where
  id : Nat
  readyState : ReadyState
  deriving DecidableEq, Repr

/-- Embedding of `broadcastRFID` (src/index.js lines 78-84):
`rfidWss.clients.forEach((client) => { if (client.readyState === WebSocket.OPEN) client.send(data); })`.
The result is the list of `send` calls performed, as (client id, payload)
pairs, in iteration order. -/
def broadcastRFID (clients : List WsClient) (data : String) : List (Nat × String) :=
  clients.filterMap fun client =>
    if client.readyState = ReadyState.OPEN then some (client.id, data) else none

/-- Embedding of `broadcastWeight` (src/index.js lines 86-92); the body is
identical to `broadcastRFID` but iterates `weightWss.clients`. -/
def broadcastWeight (clients : List WsClient) (data : String) : List (Nat × String) :=
  clients.filterMap fun client =>
    if client.readyState = ReadyState.OPEN then some (client.id, data) else none

theorem broadcastRFID_eq_filter_map (clients : List WsClient) (data : String) :
    broadcastRFID clients data =
      (clients.filter fun c => c.readyState = ReadyState.OPEN).map fun c => (c.id, data) := by
  induction clients with
  | nil => rfl
  | cons a t ih =>
    by_cases h : a.readyState = ReadyState.OPEN <;>
      simp [broadcastRFID, List.filterMap_cons, h] <;>
      simpa [broadcastRFID] using ih

theorem mem_broadcastRFID {clients : List WsClient} {data : String} {i : Nat} {p : String}
    (h : (i, p) ∈ broadcastRFID clients data) :
    p = data ∧ ∃ c ∈ clients, c.id = i ∧ c.readyState = ReadyState.OPEN := by
  rw [broadcastRFID_eq_filter_map] at h
  rcases List.mem_map.mp h with ⟨c, hc, heq⟩
  rcases List.mem_filter.mp hc with ⟨hmem, hopen⟩
  have hsnd : data = p := by simpa using congrArg Prod.snd heq
  have hfst : c.id = i := by simpa using congrArg Prod.fst heq
  exact ⟨hsnd.symm, c, hmem, hfst, by simpa using hopen⟩

theorem broadcastRFID_nodup {clients : List WsClient} (data : String)
    (h : (clients.map WsClient.id).Nodup) :
    (broadcastRFID clients data).Nodup := by
  rw [broadcastRFID_eq_filter_map]
  have hsub : List.Sublist
      ((clients.filter fun c => c.readyState = ReadyState.OPEN).map WsClient.id)
      (clients.map WsClient.id) :=
    List.Sublist.map WsClient.id (List.filter_sublist clients)
  have hids : ((clients.filter fun c => c.readyState = ReadyState.OPEN).map WsClient.id).Nodup :=
    h.sublist hsub
  have : ((clients.filter fun c => c.readyState = ReadyState.OPEN).map
      (fun c => (c.id, data))).map Prod.fst =
      (clients.filter fun c => c.readyState = ReadyState.OPEN).map WsClient.id := by
    simp [List.map_map, Function.comp]
  exact List.Nodup.of_map Prod.fst (by rwa [this])

theorem open_mem_broadcastRFID {clients : List WsClient} {c : WsClient} (data : String)
    (hmem : c ∈ clients) (hopen : c.readyState = ReadyState.OPEN) :
    (c.id, data) ∈ broadcastRFID clients data := by
  rw [broadcastRFID_eq_filter_map]
  exact List.mem_map.mpr ⟨c, List.mem_filter.mpr ⟨hmem, by simpa using hopen⟩, rfl⟩

theorem broadcastWeight_eq_broadcastRFID : broadcastWeight = broadcastRFID := rfl

/-- Number of `send` calls in a broadcast result that target client `i` with
payload `p`. -/
def sendCount (sends : List (Nat × String)) (i : Nat) (p : String) : Nat :=
  (sends.filter fun s => s.1 = i ∧ s.2 = p).length

theorem sendCount_cons (a : Nat × String) (l : List (Nat × String)) (i : Nat) (p : String) :
    sendCount (a :: l) i p =
      if a.1 = i ∧ a.2 = p then sendCount l i p + 1 else sendCount l i p := by
  by_cases h : a.1 = i ∧ a.2 = p <;> simp [sendCount, List.filter_cons, h]

theorem sendCount_eq_zero_of_not_mem {l : List (Nat × String)} {i : Nat} {p : String}
    (h : (i, p) ∉ l) : sendCount l i p = 0 := by
  induction l with
  | nil => rfl
  | cons a t ih =>
    rw [sendCount_cons]
    have ha : ¬(a.1 = i ∧ a.2 = p) := by
      intro hc
      exact h (List.mem_cons.mpr (Or.inl (Prod.ext_iff.mpr ⟨hc.1, hc.2⟩).symm))
    simp only [ha, if_false]
    exact ih fun hm => h (List.mem_cons.mpr (Or.inr hm))

theorem sendCount_eq_one_of_nodup_mem {l : List (Nat × String)} {i : Nat} {p : String}
    (hnd : l.Nodup) (hm : (i, p) ∈ l) : sendCount l i p = 1 := by
  induction l with
  | nil => cases hm
  | cons a t ih =>
    rw [sendCount_cons]
    rcases List.mem_cons.mp hm with heq | htail
    · have ha : a.1 = i ∧ a.2 = p := by rw [← heq]; exact ⟨rfl, rfl⟩
      have hnt : (i, p) ∉ t := by rw [heq]; exact (List.nodup_cons.mp hnd).1
      simp [ha, sendCount_eq_zero_of_not_mem hnt]
    · have ha : ¬(a.1 = i ∧ a.2 = p) := by
        intro hc
        have : a = (i, p) := Prod.ext_iff.mpr ⟨hc.1, hc.2⟩
        exact (List.nodup_cons.mp hnd).1 (this ▸ htail)
      simp only [ha, if_false]
      exact ih (List.nodup_cons.mp hnd).2 htail

/-- Claim C2: for every payload `m` and subscriber set `S` at the moment a
broadcast of `m` is called, every subscriber in `S` whose readyState is OPEN
is sent exactly one frame equal to `m`; every subscriber in any other state
(connecting, closing, closed) is sent nothing by that call (so it never
receives `m` later from it); and ids outside `S` receive nothing.  Holds for
both `broadcastRFID` and `broadcastWeight`. -/
theorem broadcast_exactly_once_to_open (clients : List WsClient) (m : String)
    (hnodup : (clients.map WsClient.id).Nodup) :
    (∀ c ∈ clients, c.readyState = ReadyState.OPEN →
      sendCount (broadcastRFID clients m) c.id m = 1 ∧
      sendCount (broadcastWeight clients m) c.id m = 1) ∧
    (∀ c ∈ clients, c.readyState ≠ ReadyState.OPEN →
      ∀ p, (c.id, p) ∉ broadcastRFID clients m ∧ (c.id, p) ∉ broadcastWeight clients m) ∧
    (∀ i, i ∉ clients.map WsClient.id →
      ∀ p, (i, p) ∉ broadcastRFID clients m ∧ (i, p) ∉ broadcastWeight clients m) := by
  rw [broadcastWeight_eq_broadcastRFID]
  refine ⟨fun c hc hopen => ?_, fun c hc hnot p => ?_, fun i hi p => ?_⟩
  · have h1 : sendCount (broadcastRFID clients m) c.id m = 1 :=
      sendCount_eq_one_of_nodup_mem (broadcastRFID_nodup m hnodup)
        (open_mem_broadcastRFID m hc hopen)
    exact ⟨h1, h1⟩
  · suffices h : (c.id, p) ∉ broadcastRFID clients m from ⟨h, h⟩
    intro hmem
    rcases mem_broadcastRFID hmem with ⟨_, c', hc', hid, hopen⟩
    have hcc : c' = c := List.inj_on_of_nodup_map hnodup hc' hc hid
    exact hnot (hcc ▸ hopen)
  · suffices h : (i, p) ∉ broadcastRFID clients m from ⟨h, h⟩
    intro hmem
    rcases mem_broadcastRFID hmem with ⟨_, c', hc', hid, _⟩
    exact hi (hid ▸ List.mem_map_of_mem WsClient.id hc')

/-- Witness for C2 at a concrete subscriber set: client 0 OPEN, client 1
CLOSED, client 2 OPEN; payload delivered once to the first OPEN client and
never to the CLOSED one. -/
theorem broadcast_exactly_once_to_open_witness :
    ((([⟨0, ReadyState.OPEN⟩, ⟨1, ReadyState.CLOSED⟩, ⟨2, ReadyState.OPEN⟩] :
        List WsClient).map WsClient.id).Nodup) ∧
    sendCount (broadcastRFID [⟨0, ReadyState.OPEN⟩, ⟨1, ReadyState.CLOSED⟩, ⟨2, ReadyState.OPEN⟩]
        "TAG001") 0 "TAG001" = 1 ∧
    ((1, "TAG001") ∉ broadcastRFID
        [⟨0, ReadyState.OPEN⟩, ⟨1, ReadyState.CLOSED⟩, ⟨2, ReadyState.OPEN⟩] "TAG001") := by
  have hnodup : ((([⟨0, ReadyState.OPEN⟩, ⟨1, ReadyState.CLOSED⟩, ⟨2, ReadyState.OPEN⟩] :
      List WsClient).map WsClient.id).Nodup) := by decide
  have h := broadcast_exactly_once_to_open
    [⟨0, ReadyState.OPEN⟩, ⟨1, ReadyState.CLOSED⟩, ⟨2, ReadyState.OPEN⟩] "TAG001" hnodup
  exact ⟨hnodup,
    (h.1 ⟨0, ReadyState.OPEN⟩ (by simp) rfl).1,
    (h.2.1 ⟨1, ReadyState.CLOSED⟩ (by simp) (by simp) "TAG001").1⟩

/- ========== Data-event forwarding (DeviceLink / DeviceListener handlers) ========== -/

/-- A logical channel of the bridge: RFID or Weight. -/
inductive Channel where
  | RFID
  | Weight
  deriving DecidableEq, Repr

/-- An inbound `data` event: a chunk delivered either by an accepted RFID
peer socket (src/index.js line 299) or by the weight-scale client socket
(line 323).  `peer` records which RFID peer the chunk came from. -/
inductive InEvent where
  | rfidData (peer : Nat) (chunk : String)
  | weightData (chunk : String)
  deriving DecidableEq, Repr

/-- Embedding of the two `data` handlers:
`socket.on('data', (data) => { const rfidData = data.toString(); broadcastRFID(rfidData); })`
(src/index.js lines 299-303) and
`weightClient.on('data', (data) => { const weightData = data.toString(); broadcastWeight(weightData); })`
(lines 323-327).  Each handler performs exactly one broadcast call on its
channel, with the chunk's decoded text and no other state; the result is
the list of broadcast calls performed by the handler. -/
def handleDataEvent : InEvent → List (Channel × String)
  | InEvent.rfidData _ chunk => [(Channel.RFID, chunk)]
  | InEvent.weightData chunk => [(Channel.Weight, chunk)]

/-- All broadcast calls made while processing a sequence of `data` events,
in arrival order.  There is no state carried between events: the handlers
keep no buffer across reads. -/
def broadcastCalls (events : List InEvent) : List (Channel × String) :=
  events.flatMap handleDataEvent

/-- The chunk an event carries for a given channel, if any. -/
def chunkOnChannel : Channel → InEvent → Option String
  | Channel.RFID, InEvent.rfidData _ chunk => some chunk
  | Channel.Weight, InEvent.weightData chunk => some chunk
  | Channel.RFID, InEvent.weightData _ => none
  | Channel.Weight, InEvent.rfidData _ _ => none

/-- Claim C1: for every sequence of data chunks received from a connected
device, the broadcast calls on the corresponding channel are exactly the
received chunks, one call per chunk, in arrival order, each with payload
equal to that chunk; and each single `data` event produces exactly one
broadcast call (no buffering across reads, no re-framing). -/
theorem forwarded_unmodified_per_chunk (events : List InEvent) (ch : Channel) :
    ((broadcastCalls events).filter fun b => b.1 = ch).map Prod.snd =
      events.filterMap (chunkOnChannel ch) ∧
    ∀ e : InEvent, (handleDataEvent e).length = 1 := by
  constructor
  · induction events with
    | nil => rfl
    | cons e t ih =>
      cases e <;> cases ch <;>
        simp only [broadcastCalls, List.flatMap_cons, handleDataEvent, chunkOnChannel,
          List.filter_append, List.map_append, List.filterMap_cons] <;>
        simp_all [broadcastCalls, List.filter_cons]
  · intro e
    cases e <;> rfl

/- ============ Weight-scale client lifecycle (DeviceLink, src/index.js 314-337) ============ -/

/-- The fixed reconnect delay of the close handler:
`setTimeout(connectWeightScale, 5000)` (src/index.js line 332). -/
def RECONNECT_DELAY : Nat := 5000

/-- Phase of the single `weightClient` socket (src/index.js line 315). -/
inductive SockPhase where
  | Connecting
  | Connected
  | Closed
  deriving DecidableEq, Repr

/-- State of the weight-scale side of the program: the socket `phase`, the
due times of pending reconnect timers (in scheduling order), the current
time `now`, whether the SIGINT handler has run (`down`), and the number of
`connectWeightScale` calls made so far (`attempts`). -/
structure WeightState where
  phase : SockPhase
  timers : List Nat
  now : Nat
  down : Bool
  attempts : Nat
  deriving DecidableEq, Repr

/-- External events acting on the weight-scale client: time passing, the
connect callback, the socket `close` event, a pending reconnect timer
firing, and SIGINT delivery. -/
inductive WeightEvent where
  | tick (dt : Nat)
  | connected
  | closed
  | fire
  | sigint
  deriving DecidableEq, Repr

/-- One step of the weight-scale client, embedding the handlers of
src/index.js and the Node event preconditions (`none` = the event cannot
occur in that state):
the connect callback (line 318) only fires while connecting; `close`
(handler lines 329-333) fires once per connection attempt, never on an
already-closed socket, and its handler unconditionally runs
`setTimeout(connectWeightScale, 5000)`, appending one pending timer; a
timer can fire only at or after its due time, and its callback
`connectWeightScale` (lines 317-321) starts a new connection attempt with
no condition attached; SIGINT (handler lines 371-379) runs
`weightClient.destroy()`, which on a not-yet-closed socket emits `close`,
re-entering the same unconditional close handler. -/
def weightStep : WeightState → WeightEvent → Option WeightState
  | s, WeightEvent.tick dt => some { s with now := s.now + dt }
  | s, WeightEvent.connected =>
      if s.phase = SockPhase.Connecting then some { s with phase := SockPhase.Connected }
      else none
  | s, WeightEvent.closed =>
      if s.phase = SockPhase.Closed then none
      else some { s with phase := SockPhase.Closed,
                         timers := s.timers ++ [s.now + RECONNECT_DELAY] }
  | s, WeightEvent.fire =>
      match s.timers with
      | [] => none
      | d :: rest =>
          if d ≤ s.now then
            some { s with phase := SockPhase.Connecting, timers := rest,
                          attempts := s.attempts + 1 }
          else none
  | s, WeightEvent.sigint =>
      if s.phase = SockPhase.Closed then some { s with down := true }
      else some { s with phase := SockPhase.Closed, down := true,
                         timers := s.timers ++ [s.now + RECONNECT_DELAY] }

/-- Startup state: `connectWeightScale()` is called once at startup
(src/index.js line 355), so the socket starts connecting with no pending
timer and one attempt made. -/
def weightInit : WeightState :=
  { phase := SockPhase.Connecting, timers := [], now := 0, down := false, attempts := 1 }

/-- Run a sequence of events from a state. -/
def weightRun : WeightState → List WeightEvent → Option WeightState
  | s, [] => some s
  | s, e :: es =>
    match weightStep s e with
    | none => none
    | some s2 => weightRun s2 es

/-- Invariant tying pending reconnect timers to the socket phase: a timer
is pending exactly while the socket is closed, and never more than one. -/
def WeightInv (s : WeightState) : Prop :=
  (s.phase = SockPhase.Closed → s.timers.length ≤ 1) ∧
  (s.phase ≠ SockPhase.Closed → s.timers = [])

theorem weightStep_preserves_inv {s s2 : WeightState} {e : WeightEvent}
    (hinv : WeightInv s) (h : weightStep s e = some s2) : WeightInv s2 := by
  cases e with
  | tick dt =>
    cases h
    exact hinv
  | connected =>
    simp only [weightStep] at h
    split at h
    · rename_i hp
      cases h
      refine ⟨(fun hc => nomatch hc), fun _ => ?_⟩
      exact hinv.2 (by rw [hp]; exact fun hk => nomatch hk)
    · cases h
  | closed =>
    simp only [weightStep] at h
    split at h
    · cases h
    · rename_i hp
      cases h
      refine ⟨fun _ => ?_, fun hne => absurd rfl hne⟩
      rw [hinv.2 hp]
      simp
  | fire =>
    simp only [weightStep] at h
    split at h
    · cases h
    · rename_i d rest ht
      split at h
      · cases h
        refine ⟨(fun hc => nomatch hc), fun _ => ?_⟩
        show rest = []
        by_cases hp : s.phase = SockPhase.Closed
        · have hlen := hinv.1 hp
          rw [ht] at hlen
          simp only [List.length_cons] at hlen
          have hz : rest.length = 0 := by omega
          exact List.length_eq_zero.mp hz
        · have hnil := hinv.2 hp
          rw [ht] at hnil
          cases hnil
      · cases h
  | sigint =>
    simp only [weightStep] at h
    split at h
    · rename_i hp
      cases h
      exact ⟨fun _ => hinv.1 hp, fun hne => absurd hp hne⟩
    · rename_i hp
      cases h
      refine ⟨fun _ => ?_, fun hne => absurd rfl hne⟩
      rw [hinv.2 hp]
      simp

theorem weightRun_preserves_inv {s s2 : WeightState} {es : List WeightEvent}
    (hinv : WeightInv s) (h : weightRun s es = some s2) : WeightInv s2 := by
  induction es generalizing s with
  | nil =>
    cases h
    exact hinv
  | cons e es ih =>
    rw [weightRun] at h
    rcases hs : weightStep s e with _ | s1 <;> rw [hs] at h
    · cases h
    · exact ih (weightStep_preserves_inv hinv hs) h

theorem weightInit_inv : WeightInv weightInit :=
  ⟨(fun hc => nomatch hc), fun _ => rfl⟩

/-- Claim C3: in every reachable state of the weight-scale client at most one
pending reconnect timer exists (so no close can produce two concurrent
pending reconnects); every `close` event schedules exactly one reconnect
timer, due exactly `RECONNECT_DELAY` (5 s) after the close; and a timer
fires only at or after its due time, consuming itself. -/
theorem weight_reconnect_not_duplicated (es : List WeightEvent) (s : WeightState)
    (h : weightRun weightInit es = some s) :
    s.timers.length ≤ 1 ∧
    (∀ s1 s2 : WeightState, weightStep s1 WeightEvent.closed = some s2 →
      s2.timers = s1.timers ++ [s1.now + RECONNECT_DELAY]) ∧
    (∀ s1 s2 : WeightState, weightStep s1 WeightEvent.fire = some s2 →
      ∃ d rest, s1.timers = d :: rest ∧ d ≤ s1.now ∧ s2.timers = rest) := by
  refine ⟨?_, ?_, ?_⟩
  · have hinv := weightRun_preserves_inv weightInit_inv h
    by_cases hp : s.phase = SockPhase.Closed
    · exact hinv.1 hp
    · rw [hinv.2 hp]
      exact Nat.zero_le 1
  · intro s1 s2 hstep
    simp only [weightStep] at hstep
    split at hstep
    · cases hstep
    · cases hstep
      rfl
  · intro s1 s2 hstep
    simp only [weightStep] at hstep
    split at hstep
    · cases hstep
    · rename_i d rest ht
      split at hstep
      · rename_i hd
        cases hstep
        exact ⟨d, rest, ht, hd, rfl⟩
      · cases hstep

/-- Witness for C3: the trace connect-then-close-then-reconnect, evaluated
concretely; the reached state has at most one pending timer. -/
theorem weight_reconnect_not_duplicated_witness :
    weightRun weightInit
        [WeightEvent.connected, WeightEvent.closed, WeightEvent.tick 5000, WeightEvent.fire] =
      some { phase := SockPhase.Connecting, timers := [], now := 5000, down := false,
             attempts := 2 } ∧
    ({ phase := SockPhase.Connecting, timers := [], now := 5000, down := false,
       attempts := 2 } : WeightState).timers.length ≤ 1 := by
  refine ⟨by decide, ?_⟩
  exact (weight_reconnect_not_duplicated
    [WeightEvent.connected, WeightEvent.closed, WeightEvent.tick 5000, WeightEvent.fire]
    { phase := SockPhase.Connecting, timers := [], now := 5000, down := false, attempts := 2 }
    (by decide)).1

/-- Embedding of the weight-scale `error` handler (src/index.js lines
335-337): `weightClient.on('error', (err) => { console.error(...) })`.
Its whole body is one log call; the `Except` result records that it returns
normally (`ok` with the log lines) rather than raising. -/
def weightErrorHandler (err : String) : Except String (List String) :=
  Except.ok ["Weight scale connection error: " ++ err]

theorem weightRun_append (s : WeightState) (es1 es2 : List WeightEvent) :
    weightRun s (es1 ++ es2) =
      (weightRun s es1).bind fun s1 => weightRun s1 es2 := by
  induction es1 generalizing s with
  | nil => rfl
  | cons e t ih =>
    rw [List.cons_append, weightRun, weightRun]
    rcases weightStep s e with _ | s1
    · rfl
    · exact ih s1

/-- One failure cycle of the weight-scale client: the connection closes, the
fixed delay elapses, the reconnect timer fires. -/
def closeFireCycle : List WeightEvent :=
  [WeightEvent.closed, WeightEvent.tick RECONNECT_DELAY, WeightEvent.fire]

/-- `n` consecutive failure cycles. -/
def repeatCycles : Nat → List WeightEvent
  | 0 => []
  | Nat.succ n => closeFireCycle ++ repeatCycles n

theorem weightRun_closeFireCycle (t a : Nat) (dn : Bool) :
    weightRun { phase := SockPhase.Connecting, timers := [], now := t, down := dn,
                attempts := a } closeFireCycle =
      some { phase := SockPhase.Connecting, timers := [], now := t + RECONNECT_DELAY,
             down := dn, attempts := a + 1 } := by
  simp [closeFireCycle, weightRun, weightStep]

theorem weightRun_repeatCycles (n t a : Nat) (dn : Bool) :
    weightRun { phase := SockPhase.Connecting, timers := [], now := t, down := dn,
                attempts := a } (repeatCycles n) =
      some { phase := SockPhase.Connecting, timers := [], now := t + RECONNECT_DELAY * n,
             down := dn, attempts := a + n } := by
  induction n generalizing t a with
  | zero => simp [repeatCycles, weightRun]
  | succ n ih =>
    rw [repeatCycles, weightRun_append, weightRun_closeFireCycle, Option.some_bind, ih]
    have h1 : t + RECONNECT_DELAY + RECONNECT_DELAY * n = t + RECONNECT_DELAY * (n + 1) := by
      ring
    have h2 : a + 1 + n = a + (n + 1) := by ring
    rw [h1, h2]

/-- Claim C6: transport errors on the weight-scale connection are logged and
never raised to the caller (the error handler returns normally for every
error); the close handler always schedules the next attempt after the same
fixed delay `RECONNECT_DELAY`, whatever the state — in particular however
many attempts have been made, so there is no backoff growth; and for every
`n` the client survives `n` consecutive failure cycles and begins attempt
`n + 1` — no maximum retry count. -/
theorem weight_error_logged_and_retries_forever :
    (∀ err, weightErrorHandler err = Except.ok ["Weight scale connection error: " ++ err]) ∧
    (∀ s1 s2 : WeightState, weightStep s1 WeightEvent.closed = some s2 →
      s2.timers = s1.timers ++ [s1.now + RECONNECT_DELAY]) ∧
    (∀ n : Nat, weightRun weightInit (repeatCycles n) =
      some { phase := SockPhase.Connecting, timers := [], now := RECONNECT_DELAY * n,
             down := false, attempts := 1 + n }) := by
  refine ⟨fun err => rfl, ?_, ?_⟩
  · intro s1 s2 hstep
    simp only [weightStep] at hstep
    split at hstep
    · cases hstep
    · cases hstep
      rfl
  · intro n
    have h := weightRun_repeatCycles n 0 1 false
    simpa [weightInit, Nat.add_comm] using h

/-- Claim C5, evaluated at the failing input (this is a defect in the code,
not in the claim): the SIGINT handler (src/index.js lines 371-379) runs
`weightClient.destroy()`, whose `close` event re-enters the unconditional
close handler (lines 329-333), so a reconnect timer is scheduled during
shutdown; when it fires, `connectWeightScale` runs without consulting any
shutdown flag.  Concretely: deliver SIGINT while connected, wait the delay,
let the timer fire — the client is connecting again (`attempts` has grown
from 1 to 2) even though `down = true`. -/
theorem weight_reconnect_after_sigint :
    weightRun weightInit
        [WeightEvent.connected, WeightEvent.sigint, WeightEvent.tick RECONNECT_DELAY,
         WeightEvent.fire] =
      some { phase := SockPhase.Connecting, timers := [], now := RECONNECT_DELAY,
             down := true, attempts := 2 } := by
  decide

/- ============ RFID listener peers (DeviceListener, src/index.js 296-312) ============ -/

/-- State of the RFID TCP server: the connected peer sockets (by id, in
accept order), the RFID broadcast payloads emitted so far, and the log
lines. -/
structure RfidServerState where
  peers : List Nat
  sent : List String
  logs : List String
  deriving DecidableEq, Repr

/-- Events on the RFID TCP server: an accepted connection, and per-peer
`data`, `end` and `error` events from a connected socket. -/
inductive RfidEvent where
  | connect (peer : Nat)
  | dataEvt (peer : Nat) (chunk : String)
  | endEvt (peer : Nat)
  | errorEvt (peer : Nat) (err : String)
  deriving DecidableEq, Repr

/-- Embedding of the `net.createServer` connection handler (src/index.js
lines 296-312).  A socket emits events only while connected (`none` = the
event cannot occur).  On `connect` the handler logs the new connection and
registers the per-socket handlers; on `data` it broadcasts the decoded
chunk (line 302); the `end` handler (lines 305-307) and `error` handler
(lines 309-311) each contain a single log call — no retry, no redial — and
the runtime then releases that one socket, removing it from the connected
set.  No handler touches any other peer. -/
def rfidStep : RfidServerState → RfidEvent → Option RfidServerState
  | s, RfidEvent.connect p =>
      if p ∈ s.peers then none
      else some { s with peers := s.peers ++ [p],
                         logs := s.logs ++ ["New RFID TCP connection"] }
  | s, RfidEvent.dataEvt p chunk =>
      if p ∈ s.peers then
        some { s with sent := s.sent ++ [chunk],
                      logs := s.logs ++ ["RFID Data received: " ++ chunk] }
      else none
  | s, RfidEvent.endEvt p =>
      if p ∈ s.peers then
        some { s with peers := s.peers.erase p,
                      logs := s.logs ++ ["RFID TCP connection closed"] }
      else none
  | s, RfidEvent.errorEvt p err =>
      if p ∈ s.peers then
        some { s with peers := s.peers.erase p,
                      logs := s.logs ++ ["RFID TCP Socket error: " ++ err] }
      else none

/-- Claim C7: an `end` or `error` event from a connected RFID peer `p`
releases exactly that peer — silently (only a log line, no broadcast, no
retry action) — and leaves every other peer untouched: membership of any
`q ≠ p` is unchanged, and a subsequent `data` event from such a `q` still
broadcasts its chunk exactly as before. -/
theorem rfid_peer_failure_isolated (s : RfidServerState) (p : Nat) (hp : p ∈ s.peers)
    (e : RfidEvent) (he : e = RfidEvent.endEvt p ∨ ∃ err, e = RfidEvent.errorEvt p err) :
    ∃ s2, rfidStep s e = some s2 ∧
      s2.peers = s.peers.erase p ∧
      s2.sent = s.sent ∧
      (∀ q, q ≠ p → (q ∈ s2.peers ↔ q ∈ s.peers)) ∧
      (∀ q c, q ≠ p → q ∈ s.peers →
        ∃ s3, rfidStep s2 (RfidEvent.dataEvt q c) = some s3 ∧ s3.sent = s.sent ++ [c]) := by
  have hcommon : ∀ lg : String,
      ∃ s2, s2 = { s with peers := s.peers.erase p, logs := s.logs ++ [lg] } ∧
        s2.peers = s.peers.erase p ∧
        s2.sent = s.sent ∧
        (∀ q, q ≠ p → (q ∈ s2.peers ↔ q ∈ s.peers)) ∧
        (∀ q c, q ≠ p → q ∈ s.peers →
          ∃ s3, rfidStep s2 (RfidEvent.dataEvt q c) = some s3 ∧ s3.sent = s.sent ++ [c]) := by
    intro lg
    refine ⟨_, rfl, rfl, rfl, fun q hq => List.mem_erase_of_ne hq, fun q c hq hqmem => ?_⟩
    have hq2 : q ∈ s.peers.erase p := (List.mem_erase_of_ne hq).mpr hqmem
    refine ⟨{ peers := s.peers.erase p, sent := s.sent ++ [c],
              logs := (s.logs ++ [lg]) ++ ["RFID Data received: " ++ c] }, ?_, rfl⟩
    simp [rfidStep, hq2]
  rcases he with rfl | ⟨err, rfl⟩
  · rcases hcommon "RFID TCP connection closed" with ⟨s2, hs2, hrest⟩
    exact ⟨s2, by rw [hs2]; simp [rfidStep, hp], hrest⟩
  · rcases hcommon ("RFID TCP Socket error: " ++ err) with ⟨s2, hs2, hrest⟩
    exact ⟨s2, by rw [hs2]; simp [rfidStep, hp], hrest⟩

/-- Witness for C7: peers 1 and 2 connected; peer 1 ends; peer 2 is
unaffected and its next chunk still broadcasts. -/
theorem rfid_peer_failure_isolated_witness :
    ∃ s2, rfidStep { peers := [1, 2], sent := [], logs := [] } (RfidEvent.endEvt 1) = some s2 ∧
      s2.peers = ([1, 2] : List Nat).erase 1 ∧
      s2.sent = ([] : List String) ∧
      (∀ q, q ≠ 1 → (q ∈ s2.peers ↔ q ∈ ([1, 2] : List Nat))) ∧
      (∀ q c, q ≠ 1 → q ∈ ([1, 2] : List Nat) →
        ∃ s3, rfidStep s2 (RfidEvent.dataEvt q c) = some s3 ∧
          s3.sent = ([] : List String) ++ [c]) :=
  rfid_peer_failure_isolated { peers := [1, 2], sent := [], logs := [] } 1 (by decide)
    (RfidEvent.endEvt 1) (Or.inl rfl)

/- ============ Print endpoint (src/index.js 182-293) ============ -/

/-- The ticket record carried in the POST body as `printData`
(fields read by the handler, src/index.js lines 205-249).  `out_time` is
optional: the handler branches on its truthiness (line 234). -/
structure PrintData where
  title : String
  ticket_no : String
  vehicle_number : String
  supplier : String
  address : String
  in_time : String
  in_weight : String
  out_time : Option String
  out_weight : String
  gross_weight : String
  deriving DecidableEq, Repr

/-- Results of the printer collaborator calls the handler awaits:
`initPrinter()` (line 185), `printer.isPrinterConnected()` (line 190) and
`printer.execute()` (line 258).  `error` models a rejected promise /
thrown error carrying its message. -/
structure PrinterIO where
  initResult : Except String Unit
  connCheck : Except String Bool
  executeResult : Except String Unit
  deriving Repr

/-- An HTTP response of the endpoint: status code and the JSON body
`{ success, message }`. -/
structure HttpResponse where
  status : Nat
  success : Bool
  message : String
  deriving DecidableEq, Repr

/-- The ESC/POS-style command sequence the handler buffers for a ticket
(src/index.js lines 200-255), one entry per printer call, with the
`out_time` branch of line 234. -/
def buildTicket (d : PrintData) : List String :=
  ["alignCenter", "setTextDoubleHeight", "setTextDoubleWidth", "bold true",
   "print " ++ d.title, "setTextNormal", "newLine", "newLine",
   "alignLeft", "setTextDoubleHeight", "println No " ++ d.ticket_no,
   "setTextDoubleHeight", "setTextDoubleWidth", "println " ++ d.vehicle_number,
   "setTextNormal", "println " ++ d.supplier, "println " ++ d.address,
   "alignLeft", "println In Time & Weight", "drawLine",
   "setTextNormal", "setTextDoubleHeight", "bold true",
   "leftRight " ++ d.in_time ++ "  | " ++ d.in_weight, "setTextNormal"]
  ++ (match d.out_time with
      | some ot =>
        ["drawLine", "alignLeft", "println Out Time & Weight", "setTextNormal",
         "setTextDoubleHeight", "bold true",
         "leftRight " ++ ot ++ "  | " ++ d.out_weight, "setTextNormal", "newLine",
         "drawLine", "setTextNormal", "setTextDoubleHeight", "bold true",
         "leftRight Gross Weight  | " ++ d.gross_weight, "setTextNormal", "newLine"]
      | none => ["drawLine"])
  ++ ["cut"]

/-- Embedding of `app.post('/api/print', ...)` (src/index.js lines 182-293).
`body` is the `printData` field destructured from the JSON body (`none`
when the request body has no such field; the first field access
`printData.title` at line 205 then raises a TypeError).  The whole body
runs in a try/catch: any uncaught error yields
`res.status(500).json({success: false, message: error.message})`
(line 291); completing normally yields
`res.json({success: true, message: ...})` (line 288), whose status is the
Express default 200.  The `isPrinterConnected` call sits in an inner
try/catch of its own (lines 189-193) that only logs, and a not-connected
result is also only logged (lines 195-198) — neither changes the
response, so `connCheck` does not appear in the result.  An
`executeResult` error is re-thrown (line 285) into the outer catch.
The second component is the buffered command sequence flushed by a
successful `execute`. -/
def handlePrint (io : PrinterIO) (body : Option PrintData) : HttpResponse × List String :=
  match io.initResult with
  | Except.error e => ({ status := 500, success := false, message := e }, [])
  | Except.ok _ =>
    match body with
    | none =>
      ({ status := 500, success := false,
         message := "Cannot read properties of undefined (reading title)" }, [])
    | some d =>
      match io.executeResult with
      | Except.error e => ({ status := 500, success := false, message := e }, [])
      | Except.ok _ =>
        ({ status := 200, success := true, message := "Print job sent successfully" },
         buildTicket d)

/-- Claim C8: a POST to the print endpoint with body `{printData: d}`
answers `{success: true, message}` with HTTP 200 when the print job
succeeds, and `{success: false, message}` with HTTP 500 when a step of
printing fails — printer initialization failing, the ticket record missing,
or `execute` failing; every response is one of these two shapes, and the
outcome never depends on the `isPrinterConnected` result, whose failure is
swallowed by the inner catch. -/
theorem print_endpoint_response (io : PrinterIO) (body : Option PrintData) :
    (∀ d, body = some d → io.initResult = Except.ok () → io.executeResult = Except.ok () →
      (handlePrint io body).1 =
        { status := 200, success := true, message := "Print job sent successfully" }) ∧
    (∀ e, io.initResult = Except.error e →
      (handlePrint io body).1 = { status := 500, success := false, message := e }) ∧
    (∀ e d, body = some d → io.initResult = Except.ok () →
      io.executeResult = Except.error e →
      (handlePrint io body).1 = { status := 500, success := false, message := e }) ∧
    (io.initResult = Except.ok () → body = none →
      (handlePrint io body).1.status = 500 ∧ (handlePrint io body).1.success = false) ∧
    ((handlePrint io body).1.status = 200 ∧ (handlePrint io body).1.success = true ∨
      (handlePrint io body).1.status = 500 ∧ (handlePrint io body).1.success = false) ∧
    (∀ c, handlePrint { io with connCheck := c } body = handlePrint io body) := by
  rcases io with ⟨ir, cc, er⟩
  rcases ir with e | u
  · refine ⟨?_, ?_, ?_, ?_, ?_, ?_⟩ <;>
      simp [handlePrint]
  · cases u
    rcases body with _ | d
    · refine ⟨?_, ?_, ?_, ?_, ?_, ?_⟩ <;>
        simp [handlePrint]
    · rcases er with e | u2
      · refine ⟨?_, ?_, ?_, ?_, ?_, ?_⟩ <;>
          simp [handlePrint]
      · cases u2
        refine ⟨?_, ?_, ?_, ?_, ?_, ?_⟩ <;>
          simp [handlePrint]

/-- A sample ticket record for concrete evaluation. -/
def sampleTicket : PrintData :=
  { title := "WEIGH TICKET", ticket_no := "1001", vehicle_number := "WP-1234",
    supplier := "Acme Suppliers", address := "Colombo", in_time := "08:00",
    in_weight := "12500", out_time := some "09:30", out_weight := "8000",
    gross_weight := "4500" }

/-- Witness for C8: with every collaborator call succeeding and a concrete
ticket in the body, the response is HTTP 200 `{success: true, ...}`. -/
theorem print_endpoint_response_witness :
    (handlePrint
        { initResult := Except.ok (), connCheck := Except.ok true,
          executeResult := Except.ok () } (some sampleTicket)).1 =
      { status := 200, success := true, message := "Print job sent successfully" } :=
  (print_endpoint_response
    { initResult := Except.ok (), connCheck := Except.ok true,
      executeResult := Except.ok () } (some sampleTicket)).1 sampleTicket rfl rfl rfl

/- ============ Host IP startup gate (checkHostIP, src/index.js 18-44) ============ -/

/-- One entry of `os.networkInterfaces()[name]`: address family, whether
the interface is internal (loopback), and its address. -/
structure NetIface where
  family : String
  internal : Bool
  address : String
  deriving DecidableEq, Repr

/-- The inner loop of `checkHostIP` over one interface name's address list:
an IPv4, non-internal entry whose address equals the required IP sets
`validIP` and breaks; all other entries are skipped. -/
def scanIfaces (required : String) : List NetIface → Bool
  | [] => false
  | ni :: rest =>
    if ni.family = "IPv4" ∧ ni.internal = false then
      if ni.address = required then true else scanIfaces required rest
    else scanIfaces required rest

/-- The outer loop of `checkHostIP` over the interface names; once
`validIP` is set the outer loop breaks too. -/
def checkHostIPValid (required : String) : List (String × List NetIface) → Bool
  | [] => false
  | (_, l) :: rest =>
    if scanIfaces required l then true else checkHostIPValid required rest

/-- The outcome of a startup check: continue, or `process.exit(code)`. -/
inductive StartupOutcome where
  | proceed
  | exitWithCode (code : Nat)
  deriving DecidableEq, Repr

/-- Embedding of `checkHostIP()` (src/index.js lines 18-44): enumerate the
network interfaces; unless some non-internal IPv4 address equals
`REQUIRED_HOST_IP`, log an error and `process.exit(1)`. -/
def checkHostIP (required : String) (ifaces : List (String × List NetIface)) :
    StartupOutcome :=
  if checkHostIPValid required ifaces then StartupOutcome.proceed
  else StartupOutcome.exitWithCode 1

/-- The top-level startup effects of src/index.js in program order:
`checkHostIP()` (line 44), then the two WebSocket server bindings (lines
68, 73), the RFID TCP listener (line 345), the Express listener (line 350)
and the first weight-scale connect (line 355). -/
inductive StartupAction where
  | hostIPCheck
  | bindRfidWsServer
  | bindWeightWsServer
  | bindRfidTcpServer
  | bindExpressServer
  | connectWeightScaleFirst
  deriving DecidableEq, Repr

/-- Program order of the startup effects in src/index.js. -/
def startupSequence : List StartupAction :=
  [StartupAction.hostIPCheck, StartupAction.bindRfidWsServer,
   StartupAction.bindWeightWsServer, StartupAction.bindRfidTcpServer,
   StartupAction.bindExpressServer, StartupAction.connectWeightScaleFirst]

theorem scanIfaces_eq_true_iff (required : String) (l : List NetIface) :
    scanIfaces required l = true ↔
      ∃ ni ∈ l, ni.family = "IPv4" ∧ ni.internal = false ∧ ni.address = required := by
  induction l with
  | nil => simp [scanIfaces]
  | cons a t ih =>
    by_cases h1 : a.family = "IPv4" ∧ a.internal = false
    · by_cases h2 : a.address = required
      · simp only [scanIfaces, if_pos h1, if_pos h2]
        exact ⟨fun _ => ⟨a, List.mem_cons_self a t, h1.1, h1.2, h2⟩, fun _ => trivial⟩
      · simp only [scanIfaces, if_pos h1, if_neg h2, ih]
        constructor
        · rintro ⟨ni, hni, hf⟩
          exact ⟨ni, List.mem_cons_of_mem a hni, hf⟩
        · rintro ⟨ni, hni, hf⟩
          rcases List.mem_cons.mp hni with rfl | hni2
          · exact absurd hf.2.2 h2
          · exact ⟨ni, hni2, hf⟩
    · simp only [scanIfaces, if_neg h1, ih]
      constructor
      · rintro ⟨ni, hni, hf⟩
        exact ⟨ni, List.mem_cons_of_mem a hni, hf⟩
      · rintro ⟨ni, hni, hf⟩
        rcases List.mem_cons.mp hni with rfl | hni2
        · exact absurd ⟨hf.1, hf.2.1⟩ h1
        · exact ⟨ni, hni2, hf⟩

theorem checkHostIPValid_eq_true_iff (required : String)
    (ifaces : List (String × List NetIface)) :
    checkHostIPValid required ifaces = true ↔
      ∃ pr ∈ ifaces, ∃ ni ∈ pr.2,
        ni.family = "IPv4" ∧ ni.internal = false ∧ ni.address = required := by
  induction ifaces with
  | nil => simp [checkHostIPValid]
  | cons a t ih =>
    rcases a with ⟨nm, l⟩
    by_cases h1 : scanIfaces required l = true
    · simp only [checkHostIPValid, if_pos h1]
      refine ⟨fun _ => ?_, fun _ => trivial⟩
      rcases (scanIfaces_eq_true_iff required l).mp h1 with ⟨ni, hni, hf⟩
      exact ⟨(nm, l), List.mem_cons_self _ t, ni, hni, hf⟩
    · simp only [checkHostIPValid, if_neg h1, ih]
      constructor
      · rintro ⟨pr, hpr, hrest⟩
        exact ⟨pr, List.mem_cons_of_mem _ hpr, hrest⟩
      · rintro ⟨pr, hpr, ni, hni, hf⟩
        rcases List.mem_cons.mp hpr with rfl | hpr2
        · exact absurd ((scanIfaces_eq_true_iff required l).mpr ⟨ni, hni, hf⟩) h1
        · exact ⟨pr, hpr2, ni, hni, hf⟩

/-- Claim C9: at startup, before any server is bound or connection
attempted (`hostIPCheck` is the first startup action), the process
enumerates the network interfaces and terminates with exit code 1 unless
some non-internal IPv4 interface address equals the configured required
IP — every input with no matching interface exits with code 1, and the
gate proceeds exactly on the inputs with a matching interface; under the
precondition that such an interface exists, the exit branch is
unreachable and startup proceeds. -/
theorem host_ip_gate (required : String) (ifaces : List (String × List NetIface))
    (h : ∃ pr ∈ ifaces, ∃ ni ∈ pr.2,
      ni.family = "IPv4" ∧ ni.internal = false ∧ ni.address = required) :
    checkHostIP required ifaces = StartupOutcome.proceed ∧
    (∀ r2 i2, ¬(∃ pr ∈ i2, ∃ ni ∈ pr.2,
        ni.family = "IPv4" ∧ ni.internal = false ∧ ni.address = r2) →
      checkHostIP r2 i2 = StartupOutcome.exitWithCode 1) ∧
    (∀ r2 i2, checkHostIP r2 i2 = StartupOutcome.proceed ↔
      ∃ pr ∈ i2, ∃ ni ∈ pr.2,
        ni.family = "IPv4" ∧ ni.internal = false ∧ ni.address = r2) ∧
    startupSequence.head? = some StartupAction.hostIPCheck := by
  have hchar : ∀ (r2 : String) (i2 : List (String × List NetIface)),
      checkHostIP r2 i2 = StartupOutcome.proceed ↔
        ∃ pr ∈ i2, ∃ ni ∈ pr.2,
          ni.family = "IPv4" ∧ ni.internal = false ∧ ni.address = r2 := by
    intro r2 i2
    by_cases hv : checkHostIPValid r2 i2 = true
    · rw [checkHostIP, if_pos hv]
      exact ⟨fun _ => (checkHostIPValid_eq_true_iff r2 i2).mp hv, fun _ => rfl⟩
    · rw [checkHostIP, if_neg hv]
      refine ⟨fun hk => StartupOutcome.noConfusion hk, fun hex => ?_⟩
      exact absurd ((checkHostIPValid_eq_true_iff r2 i2).mpr hex) hv
  refine ⟨(hchar required ifaces).mpr h, ?_, hchar, rfl⟩
  intro r2 i2 hno
  by_cases hv : checkHostIPValid r2 i2 = true
  · exact absurd ((checkHostIPValid_eq_true_iff r2 i2).mp hv) hno
  · rw [checkHostIP, if_neg hv]

/-- Witness for C9: a host with loopback plus an external IPv4 interface
matching the required address passes the gate and proceeds. -/
theorem host_ip_gate_witness :
    checkHostIP "192.168.1.50"
        [("lo", [{ family := "IPv4", internal := true, address := "127.0.0.1" }]),
         ("eth0", [{ family := "IPv6", internal := false, address := "fe80::1" },
                   { family := "IPv4", internal := false, address := "192.168.1.50" }])] =
      StartupOutcome.proceed :=
  (host_ip_gate "192.168.1.50"
    [("lo", [{ family := "IPv4", internal := true, address := "127.0.0.1" }]),
     ("eth0", [{ family := "IPv6", internal := false, address := "fe80::1" },
               { family := "IPv4", internal := false, address := "192.168.1.50" }])]
    ⟨("eth0", [{ family := "IPv6", internal := false, address := "fe80::1" },
               { family := "IPv4", internal := false, address := "192.168.1.50" }]),
      by decide,
      { family := "IPv4", internal := false, address := "192.168.1.50" },
      by decide, rfl, rfl, rfl⟩).1

/- ============ SIGINT shutdown handler (src/index.js 371-379) ============ -/

/-- The calls the SIGINT handler makes, in source order. -/
inductive ShutdownStep where
  | closeRfidTcpServer
  | destroyWeightClient
  | closeRfidWsServer
  | closeWeightWsServer
  | callAppClose
  | callProcessExit
  deriving DecidableEq, Repr

/-- Whether the Express application object has a `close` method.  `app` is
the value of `express()` (src/index.js line 63), which exposes `use`,
`post`, `listen`, ...; a `close` method exists on the `http.Server`
returned by `app.listen(...)` (line 350), not on the app object itself. -/
def expressAppHasClose : Bool := false

/-- Embedding of the SIGINT handler body (src/index.js lines 371-379): the
four close/destroy calls run in order, then `app.close()`; calling a
method that does not exist raises a TypeError, aborting the handler before
`process.exit()`.  Result: the calls that completed, and the raised error
if any. -/
def runSigintHandler (appHasCloseMethod : Bool) : List ShutdownStep × Option String :=
  let pre := [ShutdownStep.closeRfidTcpServer, ShutdownStep.destroyWeightClient,
              ShutdownStep.closeRfidWsServer, ShutdownStep.closeWeightWsServer]
  if appHasCloseMethod then
    (pre ++ [ShutdownStep.callAppClose, ShutdownStep.callProcessExit], none)
  else (pre, some "TypeError: app.close is not a function")

/-- Claim C10: the SIGINT handler invokes `app.close()` on the Express app,
which has no such method, so after closing the TCP and WebSocket servers
the handler raises a TypeError and its final `process.exit()` is never
reached. -/
theorem sigint_app_close_type_error :
    (runSigintHandler expressAppHasClose).2 =
      some "TypeError: app.close is not a function" ∧
    ShutdownStep.callProcessExit ∉ (runSigintHandler expressAppHasClose).1 ∧
    (runSigintHandler expressAppHasClose).1 =
      [ShutdownStep.closeRfidTcpServer, ShutdownStep.destroyWeightClient,
       ShutdownStep.closeRfidWsServer, ShutdownStep.closeWeightWsServer] := by
  refine ⟨rfl, ?_, rfl⟩
  decide

/- ======== RFID listener bind failure (src/index.js 345-347 and 358-360) ======== -/

/-- Outcome of the process when a server object emits `error`: with no
listener registered, Node throws the error, which is fatal at top level
(`crashed`); with a listener, the listener runs and the process keeps
going (`running`, carrying the lines logged). -/
inductive ProcessOutcome where
  | crashed (err : String)
  | running (logs : List String)
  deriving DecidableEq, Repr

/-- src/index.js line 358 registers an `error` listener on `rfidServer`
synchronously at startup, before the asynchronous listen failure could be
emitted. -/
def rfidServerHasErrorListener : Bool := true

/-- Embedding of the `rfidServer` `error` handler (src/index.js lines
358-360): `console.error('RFID TCP Server error:', err)` — one log call,
no exit, no retry. -/
def rfidServerErrorHandler (err : String) : List String :=
  ["RFID TCP Server error: " ++ err]

/-- What happens to the process when `rfidServer.listen` (line 345) fails,
e.g. with EADDRINUSE because the port is already bound: the server emits
`error`; the registered listener (line 358) handles it, so the process
keeps running with the other servers still up. -/
def rfidListenFailure (err : String) : ProcessOutcome :=
  if rfidServerHasErrorListener then ProcessOutcome.running (rfidServerErrorHandler err)
  else ProcessOutcome.crashed err

/-- Counterexample to C4 as stated: with the RFID port already bound, the
emitted EADDRINUSE error is caught by the registered log-only handler and
the process is not terminated — it keeps running (half-started), so the
bind failure is not fatal at the process level. -/
theorem rfid_bind_failure_not_fatal :
    rfidListenFailure "EADDRINUSE: address already in use" =
      ProcessOutcome.running
        ["RFID TCP Server error: EADDRINUSE: address already in use"] ∧
    ¬∃ e, rfidListenFailure "EADDRINUSE: address already in use" =
      ProcessOutcome.crashed e := by
  refine ⟨rfl, ?_⟩
  rintro ⟨e, h⟩
  exact ProcessOutcome.noConfusion h

/-- Claim C4 (amended): if the RFID listener port is already bound when
listen is called, the resulting `error` event is delivered to the
registered handler, which only logs it; the process is not terminated and
continues running the remaining services — the bind failure is treated as
a logged runtime event, not as a fatal startup error. -/
theorem rfid_bind_failure_logged_and_running (err : String) :
    rfidListenFailure err = ProcessOutcome.running ["RFID TCP Server error: " ++ err] ∧
    ¬∃ e, rfidListenFailure err = ProcessOutcome.crashed e := by
  refine ⟨rfl, ?_⟩
  rintro ⟨e, h⟩
  exact ProcessOutcome.noConfusion h
